import Mathlib

/-!
Shallow embedding of `anyrl/algos/mpi.py`: the collective gradient
optimizer (`MPIOptimizer`), the parameter synchronizer (`_VarSync`) and
the training-loop driver (`mpi_ppo`).

Numeric values are modelled as rationals.  A numpy array is a flat list
of values together with a dtype tag; the float32 cast is modelled as a
retagging of the dtype (value rounding of the cast is outside the model,
as the spec treats reduction precision only "within floating-point
tolerance").  The MPI collaborators (`Allreduce` with `op=SUM`,
`allreduce` with `op=SUM`, `bcast`) are modelled by their interface
contracts: elementwise sum over the worker group, and lossless delivery
of the root's value.  A collective call is modelled as a pure function
of every worker's local data, evaluated at the calling worker's rank,
reflecting the lockstep execution model of the source.
-/

namespace AnyrlMPI

/-- Numeric dtypes that can tag a tensor buffer. -/
inductive DType where
  | float32
  | float64
  | int32
  | int64
deriving DecidableEq, Repr

/-- A concrete numpy-style buffer: a dtype tag and flat data. -/
structure Tensor where
  dtype : DType
  data : List Rat
deriving DecidableEq, Repr

/-- The default tensor used for out-of-range positional access. -/
def defaultTensor : Tensor := ⟨DType.float32, []⟩

/-- Embedding of `np.array(x, dtype='float32')`: the send buffer of the gradient
allreduce.  The cast retags the buffer as float32. -/
def sendBuffer (t : Tensor) : Tensor := ⟨DType.float32, t.data⟩

/-- Embedding of `np.zeros(shape, dtype='float32')`: the receive buffer of the
gradient allreduce. -/
def npZerosF32 (n : Nat) : Tensor := ⟨DType.float32, List.replicate n 0⟩

/-- Embedding of `MPI.COMM_WORLD.Allreduce(send, recv, op=MPI.SUM)` on flat numeric
buffers: every position of the receive buffer is overwritten with the
sum over all `N` workers of that position of their send buffers.  The
receive buffer fixes the dtype and length of the result. -/
def mpiAllreduceSum (N : Nat) (send : Fin N → Tensor) (recv : Tensor) : Tensor :=
  ⟨recv.dtype,
    (List.range recv.data.length).map
      (fun j => Finset.univ.sum (fun u : Fin N => ((send u).data).getD j 0))⟩

/-- Embedding of `MPI.COMM_WORLD.allreduce(x, op=MPI.SUM)` on a Python scalar: the
sum of all workers' scalars. -/
def mpiAllreduceScalarSum (N : Nat) (send : Fin N → Rat) : Rat :=
  Finset.univ.sum send

/-- Embedding of `mean_grad /= MPI.COMM_WORLD.Get_size()`: elementwise division of a
buffer by the group size. -/
def tensorDivNat (t : Tensor) (n : Nat) : Tensor :=
  ⟨t.dtype, t.data.map (fun x => x / (n : Rat))⟩

/-- A TensorFlow feed_dict, modelled as an association list from
placeholder ids to scalar values (its content is opaque to the
protocol; only emptiness and identity matter here). -/
def Feed := List (Nat × Rat)
deriving DecidableEq

/-- The observable outcome of one collective `MPIOptimizer.minimize`
call on one worker: the averaged gradient values fed into the
placeholders of the apply step (in construction order), the session
state after the apply step ran, and the returned tuple. -/
structure MinimizeOutcome (σ : Type) where
  fedGrads : List Tensor
  newState : σ
  returned : List Rat

/-- Embedding of `MPIOptimizer.minimize`, executed collectively by the
group of `N` workers in lockstep and observed at worker `w`.

* `gradOuts u fd` — the local gradient tensors worker `u` obtains from
  `sess.run([x[0] for x in self.grads], feed_dict=fd)`, in the fixed
  construction order of `self.grads`.
* `evalTerm u fd t` — the scalar worker `u` obtains for auxiliary term
  `t` in the same batched `sess.run`.
* `applyOp fd fed st` — the effect of `sess.run(self.apply)` on the
  session state `st`, given the original feed `fd` extended with the
  averaged gradients `fed` bound to the placeholders.
* `state` — worker `w`'s session state before the call.
* `feedDict`, `terms` — the optional Python arguments; `none` models an
  omitted or `None` argument, and the source replaces a falsy value
  (`None` or empty) by the empty one before use. -/
def minimize {γ σ : Type} (N : Nat) (w : Fin N)
    (gradOuts : Fin N → Feed → List Tensor)
    (evalTerm : Fin N → Feed → γ → Rat)
    (applyOp : Feed → List Tensor → σ → σ)
    (state : σ)
    (feedDict : Option Feed) (terms : Option (List γ)) : MinimizeOutcome σ :=
  let fd : Feed := feedDict.getD []
  let termList : List γ := terms.getD []
  let termOuts : Fin N → List Rat := fun u => termList.map (evalTerm u fd)
  let localGrads : List Tensor := gradOuts w fd
  let fed : List Tensor :=
    (List.range localGrads.length).map (fun g =>
      let gradOut := localGrads.getD g defaultTensor
      let meanGrad := npZerosF32 gradOut.data.length
      let summed := mpiAllreduceSum N
        (fun u => sendBuffer ((gradOuts u fd).getD g defaultTensor)) meanGrad
      tensorDivNat summed N)
  let newState := applyOp fd fed state
  let returned : List Rat :=
    (List.range termList.length).map (fun i =>
      mpiAllreduceScalarSum N (fun u => (termOuts u).getD i 0) / (N : Rat))
  ⟨fed, newState, returned⟩

/-- A TensorFlow variable reference, as enumerated by
`tf.get_collection(tf.GraphKeys.GLOBAL_VARIABLES)`.  Identity (`in` /
`not in` on the Python list) is reference identity, modelled by the
`id` field; dtype and shape are carried for placeholder construction. -/
structure TFVar where
  id : Nat
  dtype : DType
  shape : List Nat
deriving DecidableEq, Repr

/-- A symbolic graph tensor (a gradient node): dtype and static shape,
as consumed by `tf.placeholder(dtype=grad.dtype, shape=grad.shape)`. -/
structure GraphTensor where
  dtype : DType
  shape : List Nat
deriving DecidableEq, Repr

/-- The state built by `MPIOptimizer.__init__`: the surviving
(gradient, variable) pairs, the placeholders (one per pair), and the
ordered variable list handed to `_VarSync`. -/
structure MPIOptimizerState where
  grads : List (Option GraphTensor × TFVar)
  placeholders : List GraphTensor
  syncVars : List TFVar
deriving DecidableEq, Repr

/-- Embedding of `MPIOptimizer.__init__`.

* `oldVariables` — the global variable collection read before anything
  is constructed.
* `computed` — the result of `optimizer.compute_gradients(loss,
  var_list)`: (gradient-or-None, variable) pairs.
* `afterVariables` — the global variable collection read after
  `optimizer.apply_gradients` has been built (which may have registered
  new slot variables such as momentum accumulators). -/
def mpiOptimizerInit (oldVariables : List TFVar)
    (computed : List (Option GraphTensor × TFVar))
    (afterVariables : List TFVar) : MPIOptimizerState :=
  let grads := computed.filter (fun pair => pair.1.isSome)
  let placeholders := grads.map (fun pair =>
    match pair.1 with
    | some g => GraphTensor.mk g.dtype g.shape
    | none => GraphTensor.mk DType.float32 [])
  let optimizerVars := afterVariables.filter
    (fun v => decide (¬ v ∈ oldVariables))
  { grads := grads
    placeholders := placeholders
    syncVars := grads.map (fun pair => pair.2) ++ optimizerVars }

/-- Embedding of `_VarSync.sync`, executed collectively by the group of
`N` workers in lockstep and observed at worker `w`.

`vals u` is worker `u`'s ordered list of current variable values (the
order of `self._variables`, identical construction on every worker).
Rank 0 broadcasts `sess.run(var)` for each variable in order and never
runs an assignment; every other rank receives the broadcast values
positionally and assigns them to its local variables.  `bcast` is
modelled as lossless delivery of the root's value.  The result is
worker `w`'s variable values after the call. -/
def syncCollective (N : Nat) (vals : Fin N → List Tensor) (w : Fin N) :
    List Tensor :=
  let root : Fin N := ⟨0, Nat.lt_of_le_of_lt (Nat.zero_le w.val) w.isLt⟩
  if w.val = 0 then
    vals w
  else
    (List.range (vals w).length).map (fun i => (vals root).getD i defaultTensor)

/-- Embedding of the loop body of `mpi_ppo`, from a given `batchIdx`
over the remaining `batches`.

* `step b` — the tuple returned by `optimizer.minimize` for batch `b`
  (the collective averaging inside it is covered by `minimize` above).
* `rank` — this worker's `MPI.COMM_WORLD.Get_rank()`.
* `logSet` — whether a `log_fn` argument was supplied.

Returns the `result` list and the number of times `log_fn` was invoked
on this worker.  After each batch the source logs (guarded by `log_fn
and rank == 0`), appends the tuple, increments `batch_idx` and breaks
when it equals `num_iter`. -/
def mpiPpoLoop {β : Type} (step : β → List Rat) (rank : Nat) (logSet : Bool)
    (numIter : Nat) : Nat → List β → List (List Rat) × Nat
  | _, [] => ([], 0)
  | batchIdx, b :: bs =>
    let terms := step b
    let logCount : Nat := if logSet = true ∧ rank = 0 then 1 else 0
    if batchIdx + 1 = numIter then
      ([terms], logCount)
    else
      let rest := mpiPpoLoop step rank logSet numIter (batchIdx + 1) bs
      (terms :: rest.1, logCount + rest.2)

/-- Embedding of `mpi_ppo`: the advantage/target estimation and
feed-dict construction are external collaborators folded into `step`;
the loop starts at `batch_idx = 0`. -/
def mpiPpo {β : Type} (step : β → List Rat) (rank : Nat) (logSet : Bool)
    (numIter : Nat) (batches : List β) : List (List Rat) × Nat :=
  mpiPpoLoop step rank logSet numIter 0 batches

/-! ### Concrete collaborators used to exercise the embedding -/

/-- A two-worker family of local gradient evaluations: one gradient
tensor of native dtype float64 with two elements, differing by rank. -/
def exGradOuts2 : Fin 2 → Feed → List Tensor :=
  fun u _ => [Tensor.mk DType.float64 [(u.val : Rat) + 1, 2]]

/-- A two-worker family of local auxiliary-term evaluations. -/
def exEvalTerm2 : Fin 2 → Feed → Nat → Rat :=
  fun u _ t => (u.val : Rat) + (t : Rat)

/-- A single-worker family of local gradient evaluations. -/
def exGradOuts1 : Fin 1 → Feed → List Tensor :=
  fun _ _ => [Tensor.mk DType.float64 [3, 5]]

/-- A single-worker family of local auxiliary-term evaluations. -/
def exEvalTerm1 : Fin 1 → Feed → Nat → Rat :=
  fun _ _ t => (t : Rat)

/-- A trivial apply step on a unit session state. -/
def exApply : Feed → List Tensor → Unit → Unit :=
  fun _ _ _ => ()

/-! ### List helper lemmas -/

lemma getD_map_range {α : Type} (f : Nat → α) (n g : Nat) (h : g < n) (d : α) :
    ((List.range n).map f).getD g d = f g := by
  have hlt : g < ((List.range n).map f).length := by simpa using h
  rw [List.getD_eq_getElem _ _ hlt]
  simp

lemma getD_map_of_lt {α β : Type} (f : α → β) (l : List α) (i : Nat)
    (h : i < l.length) (d : β) (d' : α) :
    (l.map f).getD i d = f (l.getD i d') := by
  have hlt : i < (l.map f).length := by simpa using h
  rw [List.getD_eq_getElem _ _ hlt, List.getD_eq_getElem l d' h]
  simp

lemma map_range_getD_self {α : Type} (l : List α) (d : α) :
    (List.range l.length).map (fun i => l.getD i d) = l := by
  apply List.ext_getElem
  · simp
  · intro i h₁ h₂
    simp [List.getElem?_eq_getElem h₂]

/-! ### Claim theorems -/

/-- C1: for every worker count `N ≥ 1` (there is a calling worker
`w : Fin N`) and every assignment of per-worker local gradient values,
the gradient value fed into each placeholder of the apply step by
`minimize` equals the elementwise arithmetic mean of the `N` workers'
local gradient tensors (allreduce-sum of the tensors divided by the
group size), for every gradient `g` in the fixed construction order
and every element position `j`. -/
theorem minimize_fedGrad_is_global_mean {γ σ : Type} (N : Nat) (w : Fin N)
    (gradOuts : Fin N → Feed → List Tensor) (evalTerm : Fin N → Feed → γ → Rat)
    (applyOp : Feed → List Tensor → σ → σ) (state : σ)
    (feedDict : Option Feed) (terms : Option (List γ)) (g j : Nat)
    (hg : g < (gradOuts w (feedDict.getD [])).length)
    (hj : j < ((gradOuts w (feedDict.getD [])).getD g defaultTensor).data.length)
    (hshape : ∀ u : Fin N,
      ((gradOuts u (feedDict.getD [])).getD g defaultTensor).data.length
        = ((gradOuts w (feedDict.getD [])).getD g defaultTensor).data.length) :
    (((minimize N w gradOuts evalTerm applyOp state feedDict terms).fedGrads).getD
        g defaultTensor).data.getD j 0
      = Finset.univ.sum
          (fun u : Fin N =>
            ((gradOuts u (feedDict.getD [])).getD g defaultTensor).data.getD j 0)
          / (N : Rat) := by
  simp only [minimize]
  rw [getD_map_range _ _ _ hg]
  simp only [tensorDivNat, mpiAllreduceSum, sendBuffer, npZerosF32,
    List.length_replicate, List.map_map]
  rw [getD_map_range _ _ _ hj]
  rfl

/-- Witness for C1: two workers, one gradient with values `[1, 2]` on
rank 0 and `[2, 2]` on rank 1; the fed value at position 0 is
`(1 + 2) / 2 = 3/2`. -/
theorem minimize_fedGrad_is_global_mean_witness :
    (0 < (exGradOuts2 (0 : Fin 2) (Option.getD none [])).length
      ∧ 0 < ((exGradOuts2 (0 : Fin 2) (Option.getD none [])).getD 0
          defaultTensor).data.length
      ∧ ∀ u : Fin 2,
          ((exGradOuts2 u (Option.getD none [])).getD 0 defaultTensor).data.length
            = ((exGradOuts2 (0 : Fin 2) (Option.getD none [])).getD 0
                defaultTensor).data.length)
    ∧ (((minimize 2 (0 : Fin 2) exGradOuts2 exEvalTerm2 exApply () none
          (none : Option (List Nat))).fedGrads).getD 0 defaultTensor).data.getD 0 0
      = Finset.univ.sum
          (fun u : Fin 2 =>
            ((exGradOuts2 u (Option.getD none [])).getD 0 defaultTensor).data.getD 0 0)
          / ((2 : Nat) : Rat) :=
  ⟨⟨by decide, by decide, by decide⟩,
    minimize_fedGrad_is_global_mean 2 (0 : Fin 2) exGradOuts2 exEvalTerm2 exApply ()
      none none 0 0 (by decide) (by decide) (by decide)⟩

/-- C4: for every gradient tensor exchanged in `minimize`, regardless
of the gradient's native dtype, both the send buffer
(`np.array(grad_out, dtype='float32')`) and the receive buffer
(`np.zeros(grad_out.shape, dtype='float32')`) of the allreduce are
32-bit floating point, and the resulting mean fed to the placeholder is
a float32 array. -/
theorem minimize_buffers_float32 {γ σ : Type} (N : Nat) (w : Fin N)
    (gradOuts : Fin N → Feed → List Tensor) (evalTerm : Fin N → Feed → γ → Rat)
    (applyOp : Feed → List Tensor → σ → σ) (state : σ)
    (feedDict : Option Feed) (terms : Option (List γ)) (g : Nat)
    (hg : g < (gradOuts w (feedDict.getD [])).length) :
    (∀ u : Fin N,
      (sendBuffer ((gradOuts u (feedDict.getD [])).getD g defaultTensor)).dtype
        = DType.float32)
    ∧ (npZerosF32
        ((gradOuts w (feedDict.getD [])).getD g defaultTensor).data.length).dtype
        = DType.float32
    ∧ (((minimize N w gradOuts evalTerm applyOp state feedDict terms).fedGrads).getD
        g defaultTensor).dtype = DType.float32 := by
  refine ⟨fun u => rfl, rfl, ?_⟩
  simp only [minimize]
  rw [getD_map_range _ _ _ hg]
  rfl

/-- Witness for C4: two workers with float64-native gradients; the
exchange buffers and the fed mean are float32. -/
theorem minimize_buffers_float32_witness :
    (0 < (exGradOuts2 (0 : Fin 2) (Option.getD none [])).length)
    ∧ ((∀ u : Fin 2,
        (sendBuffer ((exGradOuts2 u (Option.getD none [])).getD 0 defaultTensor)).dtype
          = DType.float32)
      ∧ (npZerosF32
          ((exGradOuts2 (0 : Fin 2) (Option.getD none [])).getD 0
            defaultTensor).data.length).dtype = DType.float32
      ∧ (((minimize 2 (0 : Fin 2) exGradOuts2 exEvalTerm2 exApply () none
            (none : Option (List Nat))).fedGrads).getD 0 defaultTensor).dtype
          = DType.float32) :=
  ⟨by decide,
    minimize_buffers_float32 2 (0 : Fin 2) exGradOuts2 exEvalTerm2 exApply ()
      none none 0 (by decide)⟩

/-- C5: the function `minimize` returns one entry per requested auxiliary term, in
the order the terms were passed, and each entry equals the
allreduce-sum of that term's locally evaluated scalar across all
workers divided by the group size. -/
theorem minimize_returned_terms_mean {γ σ : Type} (N : Nat) (w : Fin N)
    (gradOuts : Fin N → Feed → List Tensor) (evalTerm : Fin N → Feed → γ → Rat)
    (applyOp : Feed → List Tensor → σ → σ) (state : σ)
    (feedDict : Option Feed) (terms : Option (List γ)) (dγ : γ) (i : Nat)
    (hi : i < (terms.getD []).length) :
    ((minimize N w gradOuts evalTerm applyOp state feedDict terms).returned).length
      = (terms.getD []).length
    ∧ ((minimize N w gradOuts evalTerm applyOp state feedDict terms).returned).getD i 0
      = Finset.univ.sum
          (fun u : Fin N =>
            evalTerm u (feedDict.getD []) ((terms.getD []).getD i dγ))
          / (N : Rat) := by
  constructor
  · simp [minimize]
  · simp only [minimize]
    rw [getD_map_range _ _ _ hi]
    simp only [mpiAllreduceScalarSum]
    congr 1
    apply Finset.sum_congr rfl
    intro u _
    exact getD_map_of_lt (evalTerm u _) _ i hi 0 dγ

/-- Witness for C5: two workers, two requested terms; the second entry
is `((0 + 9) + (1 + 9)) / 2 = 19/2`. -/
theorem minimize_returned_terms_mean_witness :
    (1 < ((some [7, 9] : Option (List Nat)).getD []).length)
    ∧ (((minimize 2 (0 : Fin 2) exGradOuts2 exEvalTerm2 exApply () none
          (some [7, 9])).returned).length
        = ((some [7, 9] : Option (List Nat)).getD []).length
      ∧ ((minimize 2 (0 : Fin 2) exGradOuts2 exEvalTerm2 exApply () none
          (some [7, 9])).returned).getD 1 0
        = Finset.univ.sum
            (fun u : Fin 2 =>
              exEvalTerm2 u ((none : Option Feed).getD [])
                (((some [7, 9] : Option (List Nat)).getD []).getD 1 0))
            / ((2 : Nat) : Rat)) :=
  ⟨by decide,
    minimize_returned_terms_mean 2 (0 : Fin 2) exGradOuts2 exEvalTerm2 exApply ()
      none (some [7, 9]) 0 1 (by decide)⟩

/-- C3: with group size `N = 1`, `minimize` is observationally
equivalent to the underlying local optimizer: the fed (applied)
gradient for each variable has exactly the locally computed gradient's
data (allreduce over one worker is the identity; only the float32
retagging of the reduction buffer remains), each returned auxiliary
term equals its locally evaluated value, and the apply step runs on the
local state with those gradients. -/
theorem minimize_single_worker {γ σ : Type} (w : Fin 1)
    (gradOuts : Fin 1 → Feed → List Tensor) (evalTerm : Fin 1 → Feed → γ → Rat)
    (applyOp : Feed → List Tensor → σ → σ) (state : σ)
    (feedDict : Option Feed) (terms : Option (List γ)) (g : Nat)
    (hg : g < (gradOuts w (feedDict.getD [])).length) :
    ((minimize 1 w gradOuts evalTerm applyOp state feedDict terms).returned)
      = (terms.getD []).map (evalTerm w (feedDict.getD []))
    ∧ (((minimize 1 w gradOuts evalTerm applyOp state feedDict terms).fedGrads).getD
        g defaultTensor).data
      = ((gradOuts w (feedDict.getD [])).getD g defaultTensor).data
    ∧ (minimize 1 w gradOuts evalTerm applyOp state feedDict terms).newState
      = applyOp (feedDict.getD [])
          ((minimize 1 w gradOuts evalTerm applyOp state feedDict terms).fedGrads)
          state := by
  have hw : w = 0 := Subsingleton.elim w 0
  subst hw
  refine ⟨?_, ?_, rfl⟩
  · simp only [minimize]
    apply List.ext_getElem
    · simp
    · intro i h₁ h₂
      simp only [List.getElem_map, List.getElem_range, List.length_map,
        List.length_range] at h₁ h₂ ⊢
      rw [mpiAllreduceScalarSum, Fin.sum_univ_one]
      have hlt : i < ((terms.getD []).map
          (evalTerm (0 : Fin 1) (feedDict.getD []))).length := by
        simpa using h₂
      rw [List.getD_eq_getElem _ _ hlt]
      simp [div_one]
  · simp only [minimize]
    rw [getD_map_range _ _ _ hg]
    simp only [tensorDivNat, mpiAllreduceSum, sendBuffer, npZerosF32,
      List.length_replicate, List.map_map]
    apply List.ext_getElem
    · simp
    · intro i h₁ h₂
      simp only [List.getElem_map, List.getElem_range, Function.comp_apply,
        List.length_map, List.length_range] at h₁ ⊢
      rw [Fin.sum_univ_one, List.getD_eq_getElem _ _ h₂]
      simp

/-- Witness for C3: one worker with gradient data `[3, 5]` and term
list `[4]`; the fed gradient has data `[3, 5]` and the returned tuple
is the local evaluation of the terms. -/
theorem minimize_single_worker_witness :
    (0 < (exGradOuts1 (0 : Fin 1) (Option.getD none [])).length)
    ∧ (((minimize 1 (0 : Fin 1) exGradOuts1 exEvalTerm1 exApply () none
          (some [4])).returned)
        = ((some [4] : Option (List Nat)).getD []).map
            (exEvalTerm1 (0 : Fin 1) ((none : Option Feed).getD []))
      ∧ (((minimize 1 (0 : Fin 1) exGradOuts1 exEvalTerm1 exApply () none
          (some [4])).fedGrads).getD 0 defaultTensor).data
        = ((exGradOuts1 (0 : Fin 1) (Option.getD none [])).getD 0 defaultTensor).data
      ∧ (minimize 1 (0 : Fin 1) exGradOuts1 exEvalTerm1 exApply () none
          (some [4])).newState
        = exApply ((none : Option Feed).getD [])
            ((minimize 1 (0 : Fin 1) exGradOuts1 exEvalTerm1 exApply () none
              (some [4])).fedGrads) ()) :=
  ⟨by decide,
    minimize_single_worker (0 : Fin 1) exGradOuts1 exEvalTerm1 exApply ()
      none (some [4]) 0 (by decide)⟩

/-- C10: when `minimize` is called with `terms` omitted (`None`) or the
empty list, and likewise with `feed_dict` omitted or `None`, it still
performs the full gradient evaluation, allreduce-average and apply
step — its fed gradients coincide with those of the explicit
empty-argument call and the new state is the apply step run on them —
and it returns the empty tuple. -/
theorem minimize_empty_defaults {γ σ : Type} (N : Nat) (w : Fin N)
    (gradOuts : Fin N → Feed → List Tensor) (evalTerm : Fin N → Feed → γ → Rat)
    (applyOp : Feed → List Tensor → σ → σ) (state : σ)
    (feedDict : Option Feed) (terms : Option (List γ))
    (hf : feedDict = none ∨ feedDict = some [])
    (ht : terms = none ∨ terms = some []) :
    (minimize N w gradOuts evalTerm applyOp state feedDict terms).returned = []
    ∧ (minimize N w gradOuts evalTerm applyOp state feedDict terms).fedGrads
      = (minimize N w gradOuts evalTerm applyOp state (some [])
          (some ([] : List γ))).fedGrads
    ∧ (minimize N w gradOuts evalTerm applyOp state feedDict terms).newState
      = applyOp []
          ((minimize N w gradOuts evalTerm applyOp state feedDict terms).fedGrads)
          state := by
  rcases hf with rfl | rfl <;> rcases ht with rfl | rfl <;> exact ⟨rfl, rfl, rfl⟩

/-- Witness for C10: both optional arguments omitted on a two-worker
group. -/
theorem minimize_empty_defaults_witness :
    ((none : Option Feed) = none ∨ (none : Option Feed) = some [])
    ∧ ((none : Option (List Nat)) = none ∨ (none : Option (List Nat)) = some [])
    ∧ ((minimize 2 (0 : Fin 2) exGradOuts2 exEvalTerm2 exApply () none
          (none : Option (List Nat))).returned = []
      ∧ (minimize 2 (0 : Fin 2) exGradOuts2 exEvalTerm2 exApply () none
          (none : Option (List Nat))).fedGrads
        = (minimize 2 (0 : Fin 2) exGradOuts2 exEvalTerm2 exApply () (some [])
            (some ([] : List Nat))).fedGrads
      ∧ (minimize 2 (0 : Fin 2) exGradOuts2 exEvalTerm2 exApply () none
          (none : Option (List Nat))).newState
        = exApply []
            ((minimize 2 (0 : Fin 2) exGradOuts2 exEvalTerm2 exApply () none
              (none : Option (List Nat))).fedGrads) ()) :=
  ⟨Or.inl rfl, Or.inl rfl,
    minimize_empty_defaults 2 (0 : Fin 2) exGradOuts2 exEvalTerm2 exApply ()
      none none (Or.inl rfl) (Or.inl rfl)⟩

/-- Two workers' variable values before a sync: the root holds `[5]`,
the other worker holds `[0]`, for a single one-element variable. -/
def exVals2 : Fin 2 → List Tensor :=
  fun u => if u.val = 0 then [Tensor.mk DType.float32 [5]]
           else [Tensor.mk DType.float32 [0]]

/-- C2: after `sync` returns, every worker's local value of every
variable in the synchronizer's ordered set equals the root worker's
(rank 0) pre-sync value of that variable: the root broadcasts each
variable in order and every non-root worker receives and assigns the
broadcast values positionally in the same order.  The lockstep
positional pairing requires the worker's variable list to have the
root's length (identical construction on every worker). -/
theorem sync_all_equal_root (N : Nat) (hN : 0 < N) (vals : Fin N → List Tensor)
    (w : Fin N) (hlen : (vals w).length = (vals ⟨0, hN⟩).length) :
    syncCollective N vals w = vals ⟨0, hN⟩ := by
  simp only [syncCollective]
  by_cases hw : w.val = 0
  · rw [if_pos hw]
    have hweq : w = ⟨0, hN⟩ := Fin.ext hw
    rw [hweq]
  · rw [if_neg hw, hlen]
    exact map_range_getD_self _ _

/-- Witness for C2: two workers, root value `[5]`, non-root value
`[0]`; after sync the non-root worker holds the root's value. -/
theorem sync_all_equal_root_witness :
    (0 < 2 ∧ (exVals2 (1 : Fin 2)).length = (exVals2 ⟨0, by decide⟩).length)
    ∧ syncCollective 2 exVals2 (1 : Fin 2) = exVals2 ⟨0, by decide⟩ :=
  ⟨⟨by decide, by decide⟩,
    sync_all_equal_root 2 (by decide) exVals2 (1 : Fin 2) (by decide)⟩

/-- C9: on the root worker (rank 0), `sync` never mutates any local
variable: rank 0 only reads and broadcasts, never assigns, so the
root's variable values after `sync` are exactly its pre-sync values. -/
theorem sync_root_unchanged (N : Nat) (hN : 0 < N) (vals : Fin N → List Tensor) :
    syncCollective N vals ⟨0, hN⟩ = vals ⟨0, hN⟩ := by
  simp [syncCollective]

/-- Witness for C9: the root of a two-worker group keeps its values
across a sync. -/
theorem sync_root_unchanged_witness :
    0 < 2 ∧ syncCollective 2 exVals2 ⟨0, by decide⟩ = exVals2 ⟨0, by decide⟩ :=
  ⟨by decide, sync_root_unchanged 2 (by decide) exVals2⟩

/-- C6: at construction, `MPIOptimizer.__init__` keeps exactly the
(gradient, variable) pairs with a non-null gradient, detects the
variables newly created by the underlying optimizer by diffing the
global variable collection taken before construction against the
collection after `apply_gradients` is built, and hands the parameter
synchronizer exactly the gradient-source variables followed by those
newly created optimizer variables. -/
theorem mpiOptimizerInit_spec (oldVariables : List TFVar)
    (computed : List (Option GraphTensor × TFVar))
    (afterVariables : List TFVar) :
    (mpiOptimizerInit oldVariables computed afterVariables).grads
      = computed.filter (fun pair => decide (pair.1 ≠ none))
    ∧ (mpiOptimizerInit oldVariables computed afterVariables).syncVars
      = (computed.filter (fun pair => decide (pair.1 ≠ none))).map Prod.snd
        ++ afterVariables.filter (fun v => decide (¬ v ∈ oldVariables)) := by
  have hfilter : computed.filter (fun pair => pair.1.isSome)
      = computed.filter (fun pair => decide (pair.1 ≠ none)) := by
    apply List.filter_congr
    intro p _
    cases h : p.1 <;> simp [h]
  constructor
  · simpa [mpiOptimizerInit] using hfilter
  · simp only [mpiOptimizerInit, hfilter]

lemma mpiPpoLoop_result_take {β : Type} (step : β → List Rat) (rank : Nat)
    (logSet : Bool) (numIter : Nat) (bs : List β) :
    ∀ batchIdx : Nat, batchIdx < numIter →
      (mpiPpoLoop step rank logSet numIter batchIdx bs).1
        = (bs.take (numIter - batchIdx)).map step := by
  induction bs with
  | nil =>
    intro batchIdx _
    simp [mpiPpoLoop]
  | cons b bs ih =>
    intro batchIdx h
    simp only [mpiPpoLoop]
    by_cases hstop : batchIdx + 1 = numIter
    · rw [if_pos hstop]
      have hone : numIter - batchIdx = 1 := by omega
      simp [hone]
    · rw [if_neg hstop]
      have hlt : batchIdx + 1 < numIter := by omega
      have hm : numIter - batchIdx = (numIter - (batchIdx + 1)) + 1 := by omega
      simp [ih (batchIdx + 1) hlt, hm]

lemma mpiPpoLoop_logCount {β : Type} (step : β → List Rat) (rank : Nat)
    (logSet : Bool) (numIter : Nat) (bs : List β) :
    ∀ batchIdx : Nat,
      (mpiPpoLoop step rank logSet numIter batchIdx bs).2
        = if logSet = true ∧ rank = 0
          then (mpiPpoLoop step rank logSet numIter batchIdx bs).1.length
          else 0 := by
  induction bs with
  | nil =>
    intro batchIdx
    simp [mpiPpoLoop]
  | cons b bs ih =>
    intro batchIdx
    simp only [mpiPpoLoop]
    by_cases hstop : batchIdx + 1 = numIter
    · rw [if_pos hstop]
      by_cases hlog : logSet = true ∧ rank = 0
      · simp [hlog]
      · simp [hlog]
    · rw [if_neg hstop]
      by_cases hlog : logSet = true ∧ rank = 0
      · obtain ⟨hl, hr⟩ := hlog
        subst hl
        subst hr
        simp [ih (batchIdx + 1)]
        omega
      · simp [hlog, ih (batchIdx + 1)]

/-- C7 counterexample: with `num_iter = 0` and one batch, the loop
breaks only when `batch_idx` *reaches* `num_iter` after an increment,
which never happens for a cap of 0, so every batch is processed: the
result has length 1, not `min 1 0 = 0`. -/
theorem mpi_ppo_length_counterexample :
    ¬ ((mpiPpo (fun _ : Nat => ([] : List Rat)) 0 false 0 [0]).1.length
        = min ([0] : List Nat).length 0) := by
  decide

/-- C7 (amended): for an iteration cap `num_iter ≥ 1`, `mpi_ppo` calls
`minimize` once per batch, collecting one result tuple per call, and
stops at the earlier of batch-source exhaustion and the cap, so the
result is the image under `step` of the first `num_iter` batches and
its length is `min (number of batches) num_iter`.  (For `num_iter = 0`
the break condition `batch_idx == num_iter` can never hold after an
increment, so the cap is ignored and every batch is processed.) -/
theorem mpi_ppo_result_is_capped_batches {β : Type} (step : β → List Rat)
    (rank : Nat) (logSet : Bool) (numIter : Nat) (batches : List β)
    (h : 1 ≤ numIter) :
    (mpiPpo step rank logSet numIter batches).1.length
      = min batches.length numIter
    ∧ (mpiPpo step rank logSet numIter batches).1
      = (batches.take numIter).map step := by
  have htake := mpiPpoLoop_result_take step rank logSet numIter batches 0 h
  rw [Nat.sub_zero] at htake
  refine ⟨?_, htake⟩
  show (mpiPpoLoop step rank logSet numIter 0 batches).1.length
      = min batches.length numIter
  rw [htake]
  simp [List.length_take, Nat.min_comm]

/-- Witness for C7 (amended): two batches with cap 1 produce exactly
one result tuple. -/
theorem mpi_ppo_result_is_capped_batches_witness :
    1 ≤ 1
    ∧ ((mpiPpo (fun _ : Nat => ([] : List Rat)) 0 false 1 [0, 1]).1.length
        = min ([0, 1] : List Nat).length 1
      ∧ (mpiPpo (fun _ : Nat => ([] : List Rat)) 0 false 1 [0, 1]).1
        = (([0, 1] : List Nat).take 1).map (fun _ : Nat => ([] : List Rat))) :=
  ⟨by decide,
    mpi_ppo_result_is_capped_batches (fun _ : Nat => ([] : List Rat)) 0 false 1
      [0, 1] (by decide)⟩

/-- C8: the logging callback of `mpi_ppo` is invoked only on the worker
with rank 0: a worker with non-zero rank, or with no `log_fn` supplied,
never logs, and rank 0 with `log_fn` supplied logs exactly once per
completed batch (once per collected result tuple). -/
theorem mpi_ppo_logging_only_root {β : Type} (step : β → List Rat) (rank : Nat)
    (logSet : Bool) (numIter : Nat) (batches : List β) :
    (mpiPpo step rank logSet numIter batches).2
      = if logSet = true ∧ rank = 0
        then (mpiPpo step rank logSet numIter batches).1.length
        else 0 :=
  mpiPpoLoop_logCount step rank logSet numIter batches 0

end AnyrlMPI
